import Mathlib

/-
Verification of scripts/rss_import.py (RSS → Hugo bilingual post pipeline).

The Python program is shallowly embedded below.  Pure helper functions are
translated directly; every external effect (HTTP calls to the Cloudflare
rewrite service and DeepL, feed parsing, HTML text extraction by
BeautifulSoup, image fetching, filesystem writes, the wall clock) is made
explicit as an oracle field of an `Env` record, so that the per-entry and
per-feed control flow of the script becomes a pure function of the entry
data and these oracles.  Machine hashing (hashlib.sha256) is implemented
in full so that fingerprints and slug suffixes are computed exactly.
-/

set_option maxRecDepth 4000

/-! ### Python-style string primitives -/

/-- Python truthiness fallback for strings: `a or b`. -/
def pyOr (a b : String) : String := if a = "" then b else a

/-- Whitespace characters recognised by Python's `str.strip` and `re` `\s`
(ASCII subset; the feed strings handled here are within it). -/
def isPyWs (c : Char) : Bool :=
  c == ' ' || c == '\t' || c == '\n' || c == '\r' || c == '\x0b' || c == '\x0c'

/-- Python `str.strip()`. -/
def pyStrip (s : String) : String :=
  String.mk (((s.data.dropWhile isPyWs).reverse.dropWhile isPyWs).reverse)

/-- Python slicing by characters: `s[:n]`. -/
def strTake (n : Nat) (s : String) : String := String.mk (s.data.take n)

/-- Collapse runs of spaces to a single space (used after mapping each
whitespace character to a space, giving the effect of `re.sub` with
pattern backslash-s-plus and replacement a single space). -/
def squeezeSpaces : List Char → List Char
  | [] => []
  | [c] => [c]
  | a :: b :: rest =>
      if a == ' ' && b == ' ' then squeezeSpaces (b :: rest)
      else a :: squeezeSpaces (b :: rest)

/-- One pass of Python `str.replace`: scans left to right, replacing
non-overlapping occurrences.  The counter argument skips the remaining
characters of a just-matched pattern. -/
def replaceGo (pat rep : List Char) : List Char → Nat → List Char
  | [], _ => []
  | c :: rest, 0 =>
      if pat.isPrefixOf (c :: rest) then rep ++ replaceGo pat rep rest (pat.length - 1)
      else c :: replaceGo pat rep rest 0
  | _ :: rest, k + 1 => replaceGo pat rep rest k

/-- Python `s.replace(pat, rep)` for a non-empty pattern (the script only
replaces non-empty patterns). -/
def strReplace (s pat rep : String) : String :=
  if pat = "" then s else String.mk (replaceGo pat.data rep.data s.data 0)

/-- Substring search over character lists. -/
def containsL (pat : List Char) : List Char → Bool
  | [] => pat.isPrefixOf []
  | c :: rest => pat.isPrefixOf (c :: rest) || containsL pat rest

/-- Python `pat in s` for a non-empty pattern. -/
def containsB (s pat : String) : Bool := containsL pat.data s.data

/-- Count non-overlapping occurrences, scanning left to right. -/
def countGo (pat : List Char) : List Char → Nat → Nat
  | [], _ => 0
  | c :: rest, 0 =>
      if pat.isPrefixOf (c :: rest) then 1 + countGo pat rest (pat.length - 1)
      else countGo pat rest 0
  | _ :: rest, k + 1 => countGo pat rest k

/-- Number of non-overlapping occurrences of `pat` in `s` (Python
`s.count(pat)` for non-empty `pat`). -/
def countOccs (s pat : String) : Nat :=
  if pat = "" then 0 else countGo pat.data s.data 0

/-- ASCII lower-casing of one character. -/
def toLowerAscii (c : Char) : Char :=
  if 'A' ≤ c && c ≤ 'Z' then Char.ofNat (c.toNat + 32) else c

def isAlnumAscii (c : Char) : Bool :=
  ('a' ≤ c && c ≤ 'z') || ('A' ≤ c && c ≤ 'Z') || ('0' ≤ c && c ≤ '9')

/-- Split a character list on spaces, dropping empty runs. -/
def wordsGo : List Char → List Char → List String
  | [], acc => if acc.isEmpty then [] else [String.mk acc.reverse]
  | c :: rest, acc =>
      if c == ' ' then
        (if acc.isEmpty then wordsGo rest [] else String.mk acc.reverse :: wordsGo rest [])
      else wordsGo rest (c :: acc)

def joinWith (sep : String) : List String → String
  | [] => ""
  | [x] => x
  | x :: y :: rest => x ++ sep ++ joinWith sep (y :: rest)

def rstripDash (s : String) : String :=
  String.mk ((s.data.reverse.dropWhile (fun c => c == '-')).reverse)

/-- Boundary model of the external python-slugify call
`slugify(text, lowercase=True, max_length=80)` on ASCII input: keep
ASCII alphanumerics lower-cased, turn every other character into a
separator, join words with single dashes and bound the length. -/
def slugify (s : String) : String :=
  let mapped := s.data.map (fun c => if isAlnumAscii c then toLowerAscii c else ' ')
  rstripDash (strTake 80 (joinWith "-" (wordsGo mapped [])))

/-! ### SHA-256 (hashlib.sha256), bytes as `Nat` with explicit `% 2^w` -/

def M32 : Nat := 4294967296

def add32 (a b : Nat) : Nat := (a + b) % M32

def rotr32 (n x : Nat) : Nat := (x >>> n) ||| ((x <<< (32 - n)) % M32)

def sumUpper (x : Nat) : Nat := (rotr32 2 x) ^^^ (rotr32 13 x) ^^^ (rotr32 22 x)

def sumLower (x : Nat) : Nat := (rotr32 6 x) ^^^ (rotr32 11 x) ^^^ (rotr32 25 x)

def sigSched0 (x : Nat) : Nat := (rotr32 7 x) ^^^ (rotr32 18 x) ^^^ (x >>> 3)

def sigSched1 (x : Nat) : Nat := (rotr32 17 x) ^^^ (rotr32 19 x) ^^^ (x >>> 10)

def chF (e f g : Nat) : Nat := (e &&& f) ^^^ ((e ^^^ 4294967295) &&& g)

def majF (a b c : Nat) : Nat := (a &&& b) ^^^ (a &&& c) ^^^ (b &&& c)

/-- The 64 round constants of FIPS 180-4, written in decimal. -/
def sha_K : List Nat :=
  [1116352408, 1899447441, 3049323471, 3921009573, 961987163, 1508970993,
   2453635748, 2870763221, 3624381080, 310598401, 607225278, 1426881987,
   1925078388, 2162078206, 2614888103, 3248222580, 3835390401, 4022224774,
   264347078, 604807628, 770255983, 1249150122, 1555081692, 1996064986,
   2554220882, 2821834349, 2952996808, 3210313671, 3336571891, 3584528711,
   113926993, 338241895, 666307205, 773529912, 1294757372, 1396182291,
   1695183700, 1986661051, 2177026350, 2456956037, 2730485921, 2820302411,
   3259730800, 3345764771, 3516065817, 3600352804, 4094571909, 275423344,
   430227734, 506948616, 659060556, 883997877, 958139571, 1322822218,
   1537002063, 1747873779, 1955562222, 2024104815, 2227730452, 2361852424,
   2428436474, 2756734187, 3204031479, 3329325298]

def be64 (n : Nat) : List Nat :=
  [(n >>> 56) % 256, (n >>> 48) % 256, (n >>> 40) % 256, (n >>> 32) % 256,
   (n >>> 24) % 256, (n >>> 16) % 256, (n >>> 8) % 256, n % 256]

def padMsg (msg : List Nat) : List Nat :=
  let len := msg.length
  let zeros := (64 - ((len + 9) % 64)) % 64
  msg ++ [128] ++ List.replicate zeros 0 ++ be64 (8 * len)

def word32At (block : List Nat) (j : Nat) : Nat :=
  ((block.getD (4 * j) 0) <<< 24) ||| ((block.getD (4 * j + 1) 0) <<< 16) |||
    ((block.getD (4 * j + 2) 0) <<< 8) ||| block.getD (4 * j + 3) 0

def msgSchedule (block : List Nat) : List Nat :=
  let w16 := (List.range 16).map (word32At block)
  (List.range 48).foldl (fun w i =>
    let t := i + 16
    w ++ [add32 (add32 (sigSched1 (w.getD (t - 2) 0)) (w.getD (t - 7) 0))
            (add32 (sigSched0 (w.getD (t - 15) 0)) (w.getD (t - 16) 0))]) w16

structure H8 where
  a : Nat
  b : Nat
  c : Nat
  d : Nat
  e : Nat
  f : Nat
  g : Nat
  h : Nat

def compressBlock (hs : H8) (block : List Nat) : H8 :=
  let w := msgSchedule block
  let s := (List.range 64).foldl (fun s i =>
    let t1 := add32 s.h (add32 (sumLower s.e)
      (add32 (chF s.e s.f s.g) (add32 (sha_K.getD i 0) (w.getD i 0))))
    let t2 := add32 (sumUpper s.a) (majF s.a s.b s.c)
    ⟨add32 t1 t2, s.a, s.b, s.c, add32 s.d t1, s.e, s.f, s.g⟩) hs
  ⟨add32 hs.a s.a, add32 hs.b s.b, add32 hs.c s.c, add32 hs.d s.d,
   add32 hs.e s.e, add32 hs.f s.f, add32 hs.g s.g, add32 hs.h s.h⟩

def sha256Words (msg : List Nat) : List Nat :=
  let p := padMsg msg
  let final := (List.range (p.length / 64)).foldl
    (fun hs i => compressBlock hs ((p.drop (64 * i)).take 64))
    ⟨1779033703, 3144134277, 1013904242, 2773480762,
     1359893119, 2600822924, 528734635, 1541459225⟩
  [final.a, final.b, final.c, final.d, final.e, final.f, final.g, final.h]

def hexDigitChar (n : Nat) : Char := Nat.digitChar (n % 16)

def word32Hex (w : Nat) : List Char :=
  [hexDigitChar ((w >>> 28) % 16), hexDigitChar ((w >>> 24) % 16),
   hexDigitChar ((w >>> 20) % 16), hexDigitChar ((w >>> 16) % 16),
   hexDigitChar ((w >>> 12) % 16), hexDigitChar ((w >>> 8) % 16),
   hexDigitChar ((w >>> 4) % 16), hexDigitChar (w % 16)]

def sha256Hex (msg : List Nat) : String :=
  String.mk ((sha256Words msg).map word32Hex).flatten

/-- UTF-8 encoding of one character, bytes as `Nat`. -/
def utf8Char (c : Char) : List Nat :=
  let n := c.toNat
  if n < 128 then [n]
  else if n < 2048 then [192 ||| (n >>> 6), 128 ||| (n &&& 63)]
  else if n < 65536 then
    [224 ||| (n >>> 12), 128 ||| ((n >>> 6) &&& 63), 128 ||| (n &&& 63)]
  else
    [240 ||| (n >>> 18), 128 ||| ((n >>> 12) &&& 63),
     128 ||| ((n >>> 6) &&& 63), 128 ||| (n &&& 63)]

def utf8Bytes (s : String) : List Nat := (s.data.map utf8Char).flatten

/-- `hash_id` from the script: first 24 hex digits of the SHA-256 of the
UTF-8 encoding. -/
def hash_id (s : String) : String := strTake 24 (sha256Hex (utf8Bytes s))

/-! ### Remaining helpers of the script -/

/-- Boundary model of Python html.unescape, restricted to the predefined
XML entities; the strings this development evaluates on contain no
entities, where the model and the library agree. -/
def htmlUnescape (s : String) : String :=
  strReplace (strReplace (strReplace (strReplace s "&lt;" "<") "&gt;" ">") "&quot;" "\"")
    "&amp;" "&"

/-- `clean_text` from the script: unescape entities, collapse whitespace
runs to single spaces, strip. -/
def clean_text (t : String) : String :=
  pyStrip (String.mk (squeezeSpaces ((htmlUnescape t).data.map
    (fun c => if isPyWs c then ' ' else c))))

def pad2 (n : Nat) : String := if n < 10 then "0" ++ toString n else toString n

def pad4 (n : Nat) : String :=
  if n < 10 then "000" ++ toString n
  else if n < 100 then "00" ++ toString n
  else if n < 1000 then "0" ++ toString n
  else toString n

/-- The first six fields of a feedparser `published_parsed` time struct. -/
structure DateStruct where
  year : Nat
  month : Nat
  day : Nat
  hour : Nat
  minute : Nat
  second : Nat
deriving DecidableEq, Repr

def isLeap (y : Nat) : Bool := (y % 4 == 0 && y % 100 != 0) || y % 400 == 0

def daysInMonth (y m : Nat) : Nat :=
  if m == 2 then (if isLeap y then 29 else 28)
  else if m == 4 || m == 6 || m == 9 || m == 11 then 30
  else 31

/-- The range check performed by the `datetime` constructor; an invalid
struct makes the constructor raise, which `build_date` swallows. -/
def dateValid (d : DateStruct) : Bool :=
  decide (1 ≤ d.year) && decide (d.year ≤ 9999) &&
  decide (1 ≤ d.month) && decide (d.month ≤ 12) &&
  decide (1 ≤ d.day) && decide (d.day ≤ daysInMonth d.year d.month) &&
  decide (d.hour ≤ 23) && decide (d.minute ≤ 59) && decide (d.second ≤ 59)

def isoOf (d : DateStruct) : String :=
  pad4 d.year ++ "-" ++ pad2 d.month ++ "-" ++ pad2 d.day ++ "T" ++
    pad2 d.hour ++ ":" ++ pad2 d.minute ++ ":" ++ pad2 d.second

def TIMEZONE_OFFSET : String := "+02:00"

/-- `build_date` from the script.  `now` is the wall-clock ISO string the
script would obtain from `datetime.now()`; it is used when the struct is
absent or makes the `datetime` constructor raise. -/
def build_date (ds : Option DateStruct) (now : String) : String :=
  match ds with
  | some d => if dateValid d then isoOf d ++ TIMEZONE_OFFSET else now ++ TIMEZONE_OFFSET
  | none => now ++ TIMEZONE_OFFSET

/-- First occurrence split on a (non-empty) pattern. -/
def breakGo (pat : List Char) : List Char → Option (List Char × List Char)
  | [] => if pat.isPrefixOf [] then some ([], []) else none
  | c :: rest =>
      if pat.isPrefixOf (c :: rest) then some ([], (c :: rest).drop pat.length)
      else match breakGo pat rest with
           | some (a, b) => some (c :: a, b)
           | none => none

/-- Boundary model of `urlparse(u).netloc`. -/
def netloc (u : String) : String :=
  match breakGo "://".data u.data with
  | some (_, rest) =>
      String.mk (rest.takeWhile (fun c => c != '/' && c != '?' && c != '#'))
  | none =>
      if "//".data.isPrefixOf u.data then
        String.mk ((u.data.drop 2).takeWhile (fun c => c != '/' && c != '?' && c != '#'))
      else ""

/-- Boundary model of `urlparse(u).path`. -/
def urlPath (u : String) : String :=
  match breakGo "://".data u.data with
  | some (_, rest) =>
      String.mk ((rest.dropWhile (fun c => c != '/' && c != '?' && c != '#')).takeWhile
        (fun c => c != '?' && c != '#'))
  | none => String.mk (u.data.takeWhile (fun c => c != '?' && c != '#'))

/-- Boundary model of `pathlib.Path(p).suffix`. -/
def pathSuffix (p : String) : String :=
  let nameRev := p.data.reverse.takeWhile (fun c => c != '/')
  let extRev := nameRev.takeWhile (fun c => c != '.')
  if extRev.length + 1 < nameRev.length then String.mk ('.' :: extRev.reverse) else ""

/-- Stem of a path: file name without its final extension. -/
def stemOf (p : String) : String :=
  let nameRev := p.data.reverse.takeWhile (fun c => c != '/')
  let extRev := nameRev.takeWhile (fun c => c != '.')
  if extRev.length + 1 < nameRev.length then
    String.mk ((nameRev.drop (extRev.length + 1)).reverse)
  else String.mk nameRev.reverse

/-! ### Data model -/

/-- One feed entry as the script reads it from feedparser.  Optional
fields model `entry.get(...)` returning `None`; `content` is the value at
`content[0].value` when a content list is present. -/
structure Entry where
  link : Option String
  title : Option String
  content : Option String
  summary : Option String
  description : Option String
  publishedParsed : Option DateStruct
  enclosureHrefs : List (Option String)
  mediaUrls : List (Option String)
  tags : List String
deriving DecidableEq, Repr

/-- One configured feed descriptor from `config/feeds.yml`. -/
structure FeedMeta where
  url : String
  tags : List String
  country : Option String
  team : Option String
deriving DecidableEq, Repr

/-- Parsed content of `config/feeds.yml`; `sources` may be missing. -/
structure FeedsSpec where
  sources : Option (List FeedMeta)
deriving DecidableEq, Repr

structure Cover where
  image : String
  alt : String
  caption : String
deriving DecidableEq, Repr

/-- The front-matter record serialised by `frontmatter.dump`; its
serialisation is a deterministic function of these fields, so the file
bytes of a document are modelled by this record together with the body. -/
structure FrontMatter where
  date : String
  draft : Bool
  categories : List String
  tags : List String
  players : List String
  teams : List String
  leagues : List String
  countries : List String
  topics : List String
  typ : String
  cover : Option Cover
  title : String
  description : String
deriving DecidableEq, Repr

structure Doc where
  fm : FrontMatter
  body : String
deriving DecidableEq, Repr

/-- One record of the `seen` table in `.state/posted.json`. -/
structure SeenRec where
  link : String
  title : String
  slug : String
  ts : Nat
deriving DecidableEq, Repr

/-- Exceptions the embedding distinguishes: the `RuntimeError` raised by
`cf_rewrite` and an OSError while writing a file. -/
inductive PyErr where
  | runtime (msg : String)
  | io (path : String)
deriving DecidableEq, Repr

inductive Lang where
  | en
  | el
deriving DecidableEq, Repr

/-- The JSON body of a Cloudflare Workers AI response, reduced to the two
shapes the script probes: `result.response` and the nested
`result.output[0].content[0].text`. -/
structure CfResp where
  response : Option String
  outputText : Option String
deriving DecidableEq, Repr

/-- All the effects of one run, as oracles: service responses, library
text extraction, feed parsing, image fetching, filesystem behaviour and
clocks.  A `none` from a network oracle is a request that raised inside
the corresponding `try` block.  `pySetUnion` is the iteration order this
process observes for the unordered tag-set union `list(set(a) | set(b))`:
Python string hashing is randomized per process, so this order is an
effect of the run, not a function of the tag lists; a faithful oracle
returns the distinct elements of `a ++ b` in some order. -/
structure Env where
  cfApiToken : String
  cfAccountId : String
  deeplApiKey : String
  cfNet : Lang → Option CfResp
  deeplNet : String → Option String
  fetchImage : String → Bool
  extractText : String → String
  firstImg : String → Option String
  parse : String → List Entry
  writeFails : String → Bool
  existingStems : List String
  feedsConfig : Option (Option FeedsSpec)
  initialSeen : List (String × SeenRec)
  pySetUnion : List String → List String → List String
  now : String
  ts : Nat

/-- Result of `process_entry`: the (mutated) used-slug set, the documents
actually written, the cover downloads attempted, whether DeepL was
called, and the returned value or the exception that escaped. -/
structure PEOut where
  used : List String
  writes : List (String × Doc)
  downloads : List String
  deeplCalled : Bool
  result : Except PyErr (Option (String × String))

/-- Result of `process_feed`: the seen table after the call, the new-post
count the function would return, accumulated writes and downloads, and
the exception that escaped the entry loop, if any. -/
structure FeedOut where
  seen : List (String × SeenRec)
  newCount : Nat
  writes : List (String × Doc)
  downloads : List String
  err : Option PyErr

/-- Result of `main`: accumulated writes and downloads, the printed
new-post total, the state flushed by `save_state` (none when the run
aborted before reaching it), and the fatal error, if any. -/
structure MainOut where
  writes : List (String × Doc)
  downloads : List String
  totalNew : Nat
  flushed : Option (List (String × SeenRec))
  err : Option PyErr

/-! ### The pipeline -/

/-- `cf_rewrite` from the script.  A missing `CF_API_TOKEN` raises before
the `try` block; a missing `CF_ACCOUNT_ID` raises inside it (from
`cf_endpoint()`) and is caught; any network or HTTP error is caught; the
response text is extracted from either known shape, stripped, and an
empty result becomes `None`. -/
def cf_rewrite (env : Env) (lang : Lang) : Except PyErr (Option String) :=
  if env.cfApiToken = "" then .error (.runtime "CF_API_TOKEN env is missing")
  else if env.cfAccountId = "" then .ok none
  else
    match env.cfNet lang with
    | none => .ok none
    | some jd =>
        let text_out := match jd.response with
          | some t => if t = "" then jd.outputText else some t
          | none => jd.outputText
        let s := pyStrip (text_out.getD "")
        .ok (if s = "" then none else some s)

/-- `deepl_translate` from the script: without a key, or on any error, the
input text is returned unchanged. -/
def deepl_translate (env : Env) (text : String) : String :=
  if env.deeplApiKey = "" then text
  else match env.deeplNet text with
       | some t => t
       | none => text

/-- `select_feed_text` from the script: the cleaned title together with
the text extracted (by BeautifulSoup, here the `extractText` oracle) from
the richest available raw field. -/
def select_feed_text (env : Env) (e : Entry) : String × String :=
  let title := clean_text (e.title.getD "")
  let raw1 := e.content.getD ""
  let raw := if raw1 = "" then pyOr (e.summary.getD "") (e.description.getD "") else raw1
  (title, env.extractText raw)

/-- Candidate cover URL, in the precedence of the script: first enclosure
href, else first media_content url, else first inline image of the
summary.  The empty string stands for Python `None`/falsy. -/
def coverCandidate (env : Env) (e : Entry) : String :=
  let c1 := if e.enclosureHrefs ≠ [] then (e.enclosureHrefs.head?.getD none).getD "" else ""
  let c2 := if c1 = "" ∧ e.mediaUrls ≠ [] then (e.mediaUrls.head?.getD none).getD "" else c1
  if c2 = "" ∧ (e.summary.getD "") ≠ "" then
    match env.firstImg (e.summary.getD "") with
    | some m => if m = "" then c2 else m
    | none => c2
  else c2

/-- `download_image` from the script: extension from the URL path (with
`.jpg` fallback), fetch, and on success the public cover path. -/
def download_image (env : Env) (url slug : String) : Option String :=
  let ext := String.mk ((pathSuffix (urlPath url)).data.map toLowerAscii)
  let ext := if ext = "" ∨ 5 < ext.length then ".jpg" else ext
  if env.fetchImage url then some ("/images/covers/" ++ slug ++ "-cover" ++ ext) else none

def entry_link (e : Entry) : String := e.link.getD ""

def source_name_of (fm : FeedMeta) (e : Entry) : String :=
  strReplace (pyOr (netloc (entry_link e)) (pyOr (netloc fm.url) "source")) "www." ""

/-- The slug choice of the script: the base when it is unused, otherwise
the base extended with the first six hex digits of the link hash. -/
def allocSlug (base : String) (used : List String) (link : String) : String :=
  if base ∈ used then base ++ "-" ++ strTake 6 (hash_id link) else base

/-- Tier-3 deterministic fallback body for English. -/
def fallback_en (title feed_text source_name link : String) : String :=
  title ++ "\n\n" ++ strTake 1000 feed_text ++ "\n\nSource: " ++ source_name ++
    " (" ++ link ++ ")"

/-- Tier-3 deterministic fallback body for Greek. -/
def fallback_el (title feed_text source_name link : String) : String :=
  title ++ "\n\n" ++ strTake 1000 feed_text ++ "\n\nΠηγή: " ++ source_name ++
    " (" ++ link ++ ")"

/-- The Greek-label pass of the script: when the Greek body lacks the
Greek label but carries the English one, the English label is replaced;
nothing is ever appended. -/
def el_label_fix (body : String) : String :=
  if !containsB body "Πηγή:" && containsB body "Source:" then
    strReplace body "Source:" "Πηγή:"
  else body

/-- One possible iteration order of a Python set union: the distinct
elements in first-occurrence order.  The pipeline itself consults the
`pySetUnion` oracle of `Env` (the order is hash-randomized per process);
this function only instantiates that oracle in concrete fixtures. -/
def dedupFirst : List String → List String → List String
  | [], _ => []
  | x :: xs, seenT => if x ∈ seenT then dedupFirst xs seenT else x :: dedupFirst xs (x :: seenT)

def pyOptList (o : Option String) : List String :=
  match o with
  | some c => if c = "" then [] else [c]
  | none => []

def CONTENT_EN : String := "content/en/posts/"

def CONTENT_EL : String := "content/el/posts/"

/-- `process_entry` from the script, one entry through text selection,
slug allocation, cover resolution, the rewrite chain, front matter and
the two writes.  Effects that happened before an exception are recorded
in the output even when `result` is an error, matching the in-place
mutations of the Python code. -/
def process_entry (env : Env) (fm : FeedMeta) (e : Entry) (used0 : List String) : PEOut :=
  let link := entry_link e
  let source_name := source_name_of fm e
  let published := build_date e.publishedParsed env.now
  let tf := select_feed_text env e
  let title := tf.1
  let feed_text := tf.2
  if title = "" ∧ feed_text = "" then ⟨used0, [], [], false, .ok none⟩
  else
    let base_slug := pyOr (slugify (pyOr title link)) "news"
    let slug := allocSlug base_slug used0 link
    let used := used0 ++ [slug]
    let cover_url := coverCandidate env e
    let downloads := if cover_url = "" then [] else [cover_url]
    let cover_rel := if cover_url = "" then none else download_image env cover_url slug
    match cf_rewrite env .en with
    | .error er => ⟨used, [], downloads, false, .error er⟩
    | .ok bEN0 =>
      match cf_rewrite env .el with
      | .error er => ⟨used, [], downloads, false, .error er⟩
      | .ok bEL0 =>
        let enFailed := (bEN0.getD "") = ""
        let elFailed := (bEL0.getD "") = ""
        let deeplCalled := elFailed ∧ ¬enFailed ∧ env.deeplApiKey ≠ ""
        let body_el1 :=
          if elFailed ∧ ¬enFailed ∧ env.deeplApiKey ≠ "" then
            deepl_translate env (bEN0.getD "")
          else bEL0.getD ""
        let body_en := if enFailed then fallback_en title feed_text source_name link
          else bEN0.getD ""
        let body_el := if body_el1 = "" then fallback_el title feed_text source_name link
          else body_el1
        let base_tags := env.pySetUnion e.tags fm.tags
        let countries := pyOptList fm.country
        let teams := pyOptList fm.team
        let coverFm := cover_rel.map (fun r => Cover.mk r "" "")
        let fm_en : FrontMatter :=
          ⟨published, false, ["news"], base_tags, [], teams, ["NBA"], countries, [],
            "posts", coverFm, pyOr title "Update", strTake 240 feed_text⟩
        let doc_en : Doc := ⟨fm_en, pyStrip body_en⟩
        let path_en := CONTENT_EN ++ slug ++ ".md"
        if env.writeFails path_en then ⟨used, [], downloads, deeplCalled, .error (.io path_en)⟩
        else
          let fm_el : FrontMatter :=
            ⟨published, false, ["news"], base_tags, [], teams, ["NBA"], countries, [],
              "posts", coverFm, pyOr title "Ενημέρωση", strTake 240 feed_text⟩
          let body_el2 := el_label_fix body_el
          let doc_el : Doc := ⟨fm_el, pyStrip body_el2⟩
          let path_el := CONTENT_EL ++ slug ++ ".md"
          if env.writeFails path_el then
            ⟨used, [(path_en, doc_en)], downloads, deeplCalled, .error (.io path_el)⟩
          else
            ⟨used, [(path_en, doc_en), (path_el, doc_el)], downloads, deeplCalled,
              .ok (some (path_en, path_el))⟩

/-- The deduplication fingerprint computed at the top of the entry loop:
`hash_id(link or title or url)` with the cleaned title. -/
def entrySig (feedUrl : String) (e : Entry) : String :=
  hash_id (pyOr (entry_link e) (pyOr (clean_text (e.title.getD "")) feedUrl))

/-- The entry loop of `process_feed`.  An exception from `process_entry`
propagates: the loop stops, returning the effects accumulated so far. -/
def feedLoop (env : Env) (fm : FeedMeta) :
    List Entry → List (String × SeenRec) → List String → FeedOut
  | [], seen, _ => ⟨seen, 0, [], [], none⟩
  | e :: rest, seen, used =>
      let sig := entrySig fm.url e
      if (seen.lookup sig).isSome then feedLoop env fm rest seen used
      else
        let pe := process_entry env fm e used
        match pe.result with
        | .error er => ⟨seen, 0, pe.writes, pe.downloads, some er⟩
        | .ok none =>
            let r := feedLoop env fm rest seen pe.used
            ⟨r.seen, r.newCount, pe.writes ++ r.writes, pe.downloads ++ r.downloads, r.err⟩
        | .ok (some pq) =>
            let seen2 := seen ++
              [(sig, ⟨entry_link e, clean_text (e.title.getD ""), stemOf pq.1, env.ts⟩)]
            let r := feedLoop env fm rest seen2 pe.used
            ⟨r.seen, r.newCount + 1, pe.writes ++ r.writes, pe.downloads ++ r.downloads, r.err⟩

/-- `process_feed` from the script: parse the feed, build the used-slug
set from the output namespace, and run the first 20 entries. -/
def process_feed (env : Env) (fm : FeedMeta)
    (seen : List (String × SeenRec)) (stems : List String) : FeedOut :=
  feedLoop env fm ((env.parse fm.url).take 20) seen stems

/-- Stems the English output namespace holds after the given writes. -/
def enStems (writes : List (String × Doc)) : List String :=
  writes.filterMap (fun pd =>
    if CONTENT_EN.data.isPrefixOf pd.1.data then some (stemOf pd.1) else none)

/-- The feed loop of `main`: each feed is attempted; an exception from a
feed is caught and logged, the in-place state mutations survive, and the
new-post count of a failed feed is discarded (the assignment that would
have added it never ran). -/
def mainLoop (env : Env) :
    List FeedMeta → List (String × SeenRec) → List (String × Doc) → List String → Nat →
      List (String × SeenRec) × List (String × Doc) × List String × Nat
  | [], seen, writes, dls, n => (seen, writes, dls, n)
  | fm :: rest, seen, writes, dls, n =>
      let fo := process_feed env fm seen (env.existingStems ++ enStems writes)
      match fo.err with
      | some _ => mainLoop env rest fo.seen (writes ++ fo.writes) (dls ++ fo.downloads) n
      | none => mainLoop env rest fo.seen (writes ++ fo.writes) (dls ++ fo.downloads)
          (n + fo.newCount)

def sourcesOf (cfg : Option FeedsSpec) : List FeedMeta :=
  match cfg with
  | none => []
  | some fs => fs.sources.getD []

/-- The `main` function of the script.  `feedsConfig = none` is `load_yaml` raising
(feeds file unreadable): fatal before any feed and before the state is
even loaded.  Otherwise the feed list (possibly empty) is processed and
the state is flushed exactly once at the end. -/
def mainRun (env : Env) : MainOut :=
  match env.feedsConfig with
  | none => ⟨[], [], 0, none, some (.io "config/feeds.yml")⟩
  | some cfg =>
      let r := mainLoop env (sourcesOf cfg) env.initialSeen [] [] 0
      ⟨r.2.1, r.2.2.1, r.2.2.2, some r.1, none⟩


/-! ### Concrete fixtures -/

/-- An environment in which both external services are unreachable, no
optional credential is set, the feed is empty and every write succeeds. -/
def baseEnv : Env :=
  { cfApiToken := "tok"
    cfAccountId := "acc"
    deeplApiKey := ""
    cfNet := fun _ => none
    deeplNet := fun _ => none
    fetchImage := fun _ => false
    extractText := fun _ => ""
    firstImg := fun _ => none
    parse := fun _ => []
    writeFails := fun _ => false
    existingStems := []
    feedsConfig := some none
    initialSeen := []
    pySetUnion := fun a b => dedupFirst (a ++ b) []
    now := "2025-01-01T00:00:00"
    ts := 100 }

def emptyEntry : Entry := ⟨none, none, none, none, none, none, [], [], []⟩

def fmA : FeedMeta := ⟨"https://feeds.alpha.example/rss", [], none, none⟩

def eAlpha : Entry := { emptyEntry with title := some "Alpha" }

def eBeta : Entry := { emptyEntry with title := some "Beta" }

def envC1 : Env :=
  { baseEnv with
    extractText := fun _ => "lead"
    parse := fun _ => [eAlpha, eBeta]
    writeFails := fun p => p == "content/en/posts/alpha.md" }

def envC2 : Env :=
  { baseEnv with
    cfApiToken := ""
    extractText := fun _ => "lead"
    parse := fun _ => [eAlpha] }

def eLinked : Entry := { emptyEntry with link := some "https://a.example/1" }

def envC4 : Env := { baseEnv with cfAccountId := "", extractText := fun _ => "lead" }

def envC5 : Env :=
  { baseEnv with
    extractText := fun _ => "lead"
    cfNet := fun l => match l with
      | .en => some ⟨some "Hello world.", none⟩
      | .el => none }

def eC6 : Entry :=
  { emptyEntry with link := some "https://a.example/1", title := some "Team X wins" }

def fmC6 : FeedMeta := ⟨"https://feeds.c6.example/rss", [], none, none⟩

def envC6 : Env :=
  { baseEnv with
    parse := fun _ => [eC6]
    extractText := fun _ => "lead"
    feedsConfig := some (some ⟨some [fmC6]⟩)
    initialSeen :=
      [(entrySig fmC6.url eC6, ⟨"https://a.example/1", "Team X wins", "team-x-wins", 50⟩)] }

def eC7 : Entry := { emptyEntry with title := some "Timeless", publishedParsed := none }

def envC7a : Env := { baseEnv with extractText := fun _ => "lead" }

def envC7b : Env := { envC7a with now := "2025-01-02T11:22:33" }

def dC7 : DateStruct := ⟨2025, 3, 14, 9, 26, 53⟩

def eC7w : Entry := { emptyEntry with title := some "Dated", publishedParsed := some dC7 }

/-- Feed metadata carrying two tags, so the tag-set union has more than
one iteration order. -/
def fmT : FeedMeta := ⟨"https://feeds.alpha.example/rss", ["nba", "eurozone"], none, none⟩

/-- Feed metadata carrying a single tag. -/
def fmB : FeedMeta := ⟨"https://feeds.alpha.example/rss", ["nba"], none, none⟩

/-- Two runs that differ only in the set-iteration order the process
happened to observe: both `pySetUnion` oracles enumerate the same set. -/
def envC7u1 : Env := { baseEnv with extractText := fun _ => "lead" }

def envC7u2 : Env :=
  { envC7u1 with pySetUnion := fun a b => (dedupFirst (a ++ b) []).reverse }

/-- A set-union order distinct from `dedupFirst` in general (it scans the
second operand first), though it agrees with it on singleton unions. -/
def unionFlipped (a b : List String) : List String := dedupFirst (b ++ a) []

def eP1 : Entry := { emptyEntry with title := some "My Post!" }

def eP2 : Entry := { emptyEntry with title := some "My Post?" }

def envC8 : Env :=
  { baseEnv with
    extractText := fun _ => "lead"
    parse := fun _ => [eP1, eP2]
    existingStems := ["my-post"] }

def envC9miss : Env := { baseEnv with feedsConfig := none }

def envC10 : Env := { baseEnv with parse := fun _ => [emptyEntry] }

/-! ### Helper lemmas -/

theorem isPrefixOf_refl_append (p b : List Char) : p.isPrefixOf (p ++ b) = true := by
  induction p with
  | nil => simp only [List.isPrefixOf]
  | cons c cs ih =>
      simp only [List.cons_append, List.isPrefixOf, beq_self_eq_true, Bool.true_and]
      exact ih

theorem isPrefixOf_extend (p xs ys : List Char) (h : p.isPrefixOf xs = true) :
    p.isPrefixOf (xs ++ ys) = true := by
  induction p generalizing xs with
  | nil => simp only [List.isPrefixOf]
  | cons c cs ih =>
      cases xs with
      | nil =>
          simp only [List.isPrefixOf] at h
          exact Bool.noConfusion h
      | cons x xt =>
          simp only [List.cons_append, List.isPrefixOf, Bool.and_eq_true] at h ⊢
          exact ⟨h.1, ih xt h.2⟩

theorem containsL_nil_pat (l : List Char) : containsL [] l = true := by
  cases l with
  | nil => rfl
  | cons c r => simp only [containsL, List.isPrefixOf, Bool.true_or]

theorem containsL_app_left (p xs ys : List Char) (h : containsL p xs = true) :
    containsL p (xs ++ ys) = true := by
  induction xs with
  | nil =>
      cases p with
      | nil => exact containsL_nil_pat ys
      | cons c cs =>
          simp only [containsL, List.isPrefixOf] at h
          exact Bool.noConfusion h
  | cons x xt ih =>
      simp only [List.cons_append, containsL, Bool.or_eq_true] at h ⊢
      rcases h with h | h
      · exact Or.inl (isPrefixOf_extend _ _ _ h)
      · exact Or.inr (ih h)

theorem containsL_app_right (p xs ys : List Char) (h : containsL p ys = true) :
    containsL p (xs ++ ys) = true := by
  induction xs with
  | nil => exact h
  | cons x xt ih =>
      simp only [List.cons_append, containsL, Bool.or_eq_true]
      exact Or.inr ih

theorem sdata_append (s t : String) : (s ++ t).data = s.data ++ t.data := by
  cases s; cases t; rfl

theorem containsB_app_left (s t pat : String) (h : containsB s pat = true) :
    containsB (s ++ t) pat = true := by
  unfold containsB at h ⊢
  rw [sdata_append]
  exact containsL_app_left _ _ _ h

theorem containsB_app_right (s t pat : String) (h : containsB t pat = true) :
    containsB (s ++ t) pat = true := by
  unfold containsB at h ⊢
  rw [sdata_append]
  exact containsL_app_right _ _ _ h

theorem cf_rewrite_ok (env : Env) (l : Lang) (ht : env.cfApiToken ≠ "") :
    ∃ o, cf_rewrite env l = .ok o := by
  unfold cf_rewrite
  rw [if_neg ht]
  by_cases ha : env.cfAccountId = ""
  · rw [if_pos ha]; exact ⟨none, rfl⟩
  · rw [if_neg ha]
    cases hc : env.cfNet l with
    | none => exact ⟨none, rfl⟩
    | some jd => exact ⟨_, rfl⟩

/-- Sanity check of the SHA-256 implementation against the published
digests of the empty message and of "abc". -/
theorem hash_id_known_answers :
    hash_id "" = "e3b0c44298fc1c149afbf4c8" ∧ hash_id "abc" = "ba7816bf8f01cfea414140de" :=
  ⟨by decide, by decide⟩

/-! ### Claim theorems -/

/-- C1, counterexample.  In `envC1` the first entry (Alpha) of feed `fmA`
fails while being processed (its English document write raises) and the
second entry (Beta) would process fine on its own; yet `process_feed`
ends with the exception escaped, nothing written and nothing seen — the
entry failure was not caught and processing did not continue with the
next entry of the same feed, contrary to the claim. -/
theorem C1_counterexample :
    (process_feed envC1 fmA [] []).err = some (PyErr.io "content/en/posts/alpha.md") ∧
    (process_feed envC1 fmA [] []).seen = [] ∧
    (process_feed envC1 fmA [] []).writes = [] ∧
    (process_feed envC1 fmA [] []).newCount = 0 ∧
    (process_entry envC1 fmA eBeta []).result =
      Except.ok (some ("content/en/posts/beta.md", "content/el/posts/beta.md")) :=
  ⟨rfl, rfl, rfl, rfl, rfl⟩

/-- C2, code-bug evidence.  With `CF_API_TOKEN` empty, an entry that
reaches the rewrite stage (its cleaned title is "Alpha") makes
`cf_rewrite` raise a RuntimeError before its `try` block; the exception
escapes `process_entry`, no document is written, the tier-3 fallback is
never reached, and the whole feed aborts — instead of the claimed
non-empty tier-3 bodies in both languages. -/
theorem C2_missing_token_aborts :
    (select_feed_text envC2 eAlpha).1 = "Alpha" ∧
    (process_entry envC2 fmA eAlpha []).result =
      Except.error (PyErr.runtime "CF_API_TOKEN env is missing") ∧
    (process_entry envC2 fmA eAlpha []).writes = [] ∧
    (process_feed envC2 fmA [] []).err =
      some (PyErr.runtime "CF_API_TOKEN env is missing") ∧
    (process_feed envC2 fmA [] []).writes = [] ∧
    (process_feed envC2 fmA [] []).seen = [] :=
  ⟨rfl, rfl, rfl, rfl, rfl, rfl⟩

/-- C3, counterexample.  For an entry with no link and no title the
fingerprint hashes the feed URL: the same entry gets different
fingerprints under different feed URLs, so the fingerprint does not
depend on the link and title alone. -/
theorem C3_counterexample :
    entry_link emptyEntry = "" ∧ emptyEntry.title = none ∧
    entrySig "https://feeds.alpha.example/rss" emptyEntry ≠
      entrySig "https://feeds.beta.example/rss" emptyEntry :=
  ⟨rfl, rfl, by decide⟩

/-- C5, counterexample.  A generative English result "Hello world."
lacking the label is written unchanged: the final English body contains
"Source:" zero times, not exactly once, and nothing is appended. -/
theorem C5_counterexample :
    (process_entry envC5 fmA eAlpha []).writes.length = 2 ∧
    ((process_entry envC5 fmA eAlpha []).writes.map (fun w => w.2.body)).getD 0 "" =
      "Hello world." ∧
    countOccs (((process_entry envC5 fmA eAlpha []).writes.map (fun w => w.2.body)).getD 0 "")
      "Source:" = 0 :=
  ⟨rfl, rfl, rfl⟩

/-- C7, counterexample.  Serialization is not deterministic in the listed
inputs.  First, the tag-union order: an entry with a valid published
timestamp under a two-tag feed is written differently by two runs whose
`pySetUnion` oracles enumerate the same tag set in different orders (both
orders are legitimate outcomes of Python's hash-randomized set
iteration, as the permutation conjunct records).  Second, the date: an
entry without a published timestamp takes its date from the wall clock,
so two runs at different times also differ. -/
theorem C7_counterexample :
    eC7w.publishedParsed = some dC7 ∧ dateValid dC7 = true ∧
    List.Perm (envC7u1.pySetUnion eC7w.tags fmT.tags)
      (envC7u2.pySetUnion eC7w.tags fmT.tags) ∧
    (process_entry envC7u1 fmT eC7w []).writes ≠
      (process_entry envC7u2 fmT eC7w []).writes ∧
    eC7.publishedParsed = none ∧
    (process_entry envC7a fmA eC7 []).writes ≠ (process_entry envC7b fmA eC7 []).writes :=
  ⟨rfl, by decide, by decide, by decide, rfl, by decide⟩

/-- C8, counterexample.  With "my-post" already present in the namespace,
the two distinct entries "My Post!" and "My Post?" (both processed: their
fingerprints differ) both normalise to the taken base "my-post" and both
receive the same suffixed slug, because the suffix hashes their (equal,
empty) links — the allocator does not keep slugs unique. -/
theorem C8_counterexample :
    eP1 ≠ eP2 ∧
    (process_feed envC8 fmA [] ["my-post"]).newCount = 2 ∧
    (process_feed envC8 fmA [] ["my-post"]).seen.length = 2 ∧
    ((process_feed envC8 fmA [] ["my-post"]).seen.map (fun p => p.1)).getD 0 "" ≠
      ((process_feed envC8 fmA [] ["my-post"]).seen.map (fun p => p.1)).getD 1 "x" ∧
    ((process_feed envC8 fmA [] ["my-post"]).seen.map (fun p => p.2.slug)).getD 0 "" =
      ((process_feed envC8 fmA [] ["my-post"]).seen.map (fun p => p.2.slug)).getD 1 "x" :=
  ⟨by decide, rfl, rfl, by decide, rfl⟩

/-- C9, counterexample.  A feeds file that exists but configures no feed
list (YAML loads as None, so the script substitutes an empty mapping) is
not fatal: the run completes with no error, processes zero feeds and
flushes the state — contrary to the claimed abort with no state flushed. -/
theorem C9_counterexample :
    sourcesOf none = [] ∧ baseEnv.feedsConfig = some none ∧
    mainRun baseEnv = ⟨[], [], 0, some [], none⟩ :=
  ⟨rfl, rfl, rfl⟩

/-- C1, amended.  Any exception raised while processing an entry leaves
no SeenRecord for it (it is retried on the next run), but it is not
caught per entry: it escapes the entry loop, aborting the remaining
entries of that feed, and is caught only by the per-feed handler in
`main`, which goes on with the next feed, discards the feed's count and
still flushes the state at the end. -/
theorem C1_amended_isolation :
    (∀ (env : Env) (fm : FeedMeta) (e : Entry) (rest : List Entry)
        (seen : List (String × SeenRec)) (used : List String) (er : PyErr),
      (seen.lookup (entrySig fm.url e)).isSome = false →
      (process_entry env fm e used).result = .error er →
      feedLoop env fm (e :: rest) seen used =
        ⟨seen, 0, (process_entry env fm e used).writes,
          (process_entry env fm e used).downloads, some er⟩) ∧
    (∀ (env : Env) (cfg : Option FeedsSpec),
      env.feedsConfig = some cfg →
      (mainRun env).err = none ∧ (mainRun env).flushed.isSome = true) := by
  constructor
  · intro env fm e rest seen used er h1 h2
    simp only [feedLoop, h1, Bool.false_eq_true, if_false, h2]
  · intro env cfg h
    simp [mainRun, h]

/-- C1, witness for the amended theorem at the concrete failing feed of
`envC1`. -/
theorem C1_amended_isolation_witness :
    feedLoop envC1 fmA [eAlpha, eBeta] [] [] =
      ⟨[], 0, (process_entry envC1 fmA eAlpha []).writes,
        (process_entry envC1 fmA eAlpha []).downloads,
        some (PyErr.io "content/en/posts/alpha.md")⟩ ∧
    (mainRun envC1).err = none ∧ (mainRun envC1).flushed.isSome = true :=
  ⟨C1_amended_isolation.1 envC1 fmA eAlpha [eBeta] [] []
      (PyErr.io "content/en/posts/alpha.md") rfl rfl,
    C1_amended_isolation.2 envC1 none rfl⟩

/-- C3, amended.  The fingerprint is `hash_id` of the link, falling back
to the cleaned title when the link is absent, and falling back further to
the feed URL only when both are absent; in particular, for every entry
with a non-empty link or a non-empty cleaned title it is a deterministic
function of link and title alone, identical across runs. -/
theorem C3_fingerprint_amended (url url2 : String) (e : Entry)
    (h : entry_link e ≠ "" ∨ clean_text (e.title.getD "") ≠ "") :
    entrySig url e = entrySig url2 e ∧
    entrySig url e = hash_id (pyOr (entry_link e) (clean_text (e.title.getD ""))) := by
  by_cases hl : entry_link e = ""
  · rcases h with h | h
    · exact absurd hl h
    · constructor <;> simp [entrySig, pyOr, hl, h]
  · constructor <;> simp [entrySig, pyOr, hl]

/-- C3, witness at an entry with a concrete link and two feed URLs. -/
theorem C3_fingerprint_amended_witness :
    (entry_link eLinked ≠ "" ∨ clean_text (eLinked.title.getD "") ≠ "") ∧
    entrySig "u1" eLinked = entrySig "u2" eLinked ∧
    entrySig "u1" eLinked =
      hash_id (pyOr (entry_link eLinked) (clean_text (eLinked.title.getD ""))) :=
  ⟨Or.inl (by decide),
    C3_fingerprint_amended "u1" "u2" eLinked (Or.inl (by decide))⟩

/-- C8, amended.  When the normalized base slug is already used, the
allocator appends the deterministic six-hex-digit hash of the link (never
a counter); this suffixed slug is used unconditionally, so it is distinct
from every slug already in the namespace only under the extra assumption
that the suffixed candidate itself is fresh — two distinct entries with
the same base and the same link hash prefix (for instance both links
empty) receive the same slug. -/
theorem C8_slug_amended (base : String) (used : List String) (link : String)
    (h : base ∈ used) :
    allocSlug base used link = base ++ "-" ++ strTake 6 (hash_id link) ∧
    (base ++ "-" ++ strTake 6 (hash_id link) ∉ used →
      allocSlug base used link ∉ used) := by
  constructor
  · simp [allocSlug, h]
  · intro h2
    simpa [allocSlug, h] using h2

/-- C8, witness for the amended theorem on a taken base. -/
theorem C8_slug_amended_witness :
    ("my-post" ∈ ["my-post"]) ∧
    allocSlug "my-post" ["my-post"] "x" = "my-post" ++ "-" ++ strTake 6 (hash_id "x") ∧
    allocSlug "my-post" ["my-post"] "x" ∉ ["my-post"] :=
  ⟨by decide,
    (C8_slug_amended "my-post" ["my-post"] "x" (by decide)).1,
    (C8_slug_amended "my-post" ["my-post"] "x" (by decide)).2 (by decide)⟩

/-- C9, amended.  Only a missing (unreadable) feeds configuration file is
fatal: `load_yaml` raises before any feed is fetched, any document is
written or the state is even loaded, so nothing is flushed; a feeds file
that exists but configures no feed list yields a normal run over zero
feeds that flushes the state. -/
theorem C9_config_amended (env : Env) (h : env.feedsConfig = none) :
    mainRun env = ⟨[], [], 0, none, some (PyErr.io "config/feeds.yml")⟩ := by
  simp [mainRun, h]

/-- C9, witness: the amended theorem at an environment whose feeds file
is missing. -/
theorem C9_config_amended_witness :
    mainRun envC9miss = ⟨[], [], 0, none, some (PyErr.io "config/feeds.yml")⟩ :=
  C9_config_amended envC9miss rfl

/-- C5, amended.  The tier-3 fallback bodies contain their localized
label ("Source:" for EN, "Πηγή:" for EL); a generative or translated
result that lacks both labels is left unchanged — nothing is appended;
the only label adjustment is the Greek pass replacing "Source:" by
"Πηγή:" when the Greek label is absent. -/
theorem C5_attribution_amended :
    (∀ t ft sn l, containsB (fallback_en t ft sn l) "Source:" = true) ∧
    (∀ t ft sn l, containsB (fallback_el t ft sn l) "Πηγή:" = true) ∧
    (∀ b, containsB b "Πηγή:" = false → containsB b "Source:" = false →
      el_label_fix b = b) := by
  refine ⟨?_, ?_, ?_⟩
  · intro t ft sn l
    unfold fallback_en
    apply containsB_app_left
    apply containsB_app_left
    apply containsB_app_left
    apply containsB_app_left
    apply containsB_app_right
    decide
  · intro t ft sn l
    unfold fallback_el
    apply containsB_app_left
    apply containsB_app_left
    apply containsB_app_left
    apply containsB_app_left
    apply containsB_app_right
    decide
  · intro b h1 h2
    simp [el_label_fix, h1, h2]

/-- C5, witness for the amended theorem at concrete strings. -/
theorem C5_attribution_amended_witness :
    containsB (fallback_en "t" "x" "s" "l") "Source:" = true ∧
    containsB (fallback_el "t" "x" "s" "l") "Πηγή:" = true ∧
    el_label_fix "abc" = "abc" :=
  ⟨C5_attribution_amended.1 "t" "x" "s" "l",
    C5_attribution_amended.2.1 "t" "x" "s" "l",
    C5_attribution_amended.2.2 "abc" (by decide) (by decide)⟩

theorem feedLoop_all_seen (env : Env) (fm : FeedMeta) :
    ∀ (es : List Entry) (seen : List (String × SeenRec)) (used : List String),
      (∀ e ∈ es, (seen.lookup (entrySig fm.url e)).isSome = true) →
      feedLoop env fm es seen used = ⟨seen, 0, [], [], none⟩ := by
  intro es
  induction es with
  | nil => intro seen used _; rfl
  | cons e rest ih =>
      intro seen used h
      have he := h e (List.mem_cons_self e rest)
      simp only [feedLoop, he, if_true]
      exact ih seen used (fun x hx => h x (List.mem_cons_of_mem e hx))

theorem mainLoop_all_seen (env : Env) (seen : List (String × SeenRec)) :
    ∀ (srcs : List FeedMeta),
      (∀ fm ∈ srcs, ∀ e ∈ (env.parse fm.url).take 20,
        (seen.lookup (entrySig fm.url e)).isSome = true) →
      ∀ (writes : List (String × Doc)) (dls : List String) (n : Nat),
        mainLoop env srcs seen writes dls n = (seen, writes, dls, n) := by
  intro srcs
  induction srcs with
  | nil => intro _ writes dls n; rfl
  | cons fm rest ih =>
      intro h writes dls n
      have hf : process_feed env fm seen (env.existingStems ++ enStems writes) =
          ⟨seen, 0, [], [], none⟩ :=
        feedLoop_all_seen env fm _ seen _
          (fun e he => h fm (List.mem_cons_self fm rest) e he)
      simp only [mainLoop, hf]
      simpa using ih (fun fm2 h2 e he => h fm2 (List.mem_cons_of_mem fm h2) e he)
        writes dls n

/-- C6, confirmed.  Re-running against an unchanged feed set with a
SeenStore already holding every entry's fingerprint writes no document,
downloads nothing, reports zero new posts and flushes the SeenStore
unchanged. -/
theorem C6_idempotent_rerun (env : Env) (cfg : Option FeedsSpec)
    (hc : env.feedsConfig = some cfg)
    (h : ∀ fm ∈ sourcesOf cfg, ∀ e ∈ (env.parse fm.url).take 20,
      (env.initialSeen.lookup (entrySig fm.url e)).isSome = true) :
    mainRun env = ⟨[], [], 0, some env.initialSeen, none⟩ := by
  simp only [mainRun, hc]
  rw [mainLoop_all_seen env env.initialSeen (sourcesOf cfg) h [] [] 0]

/-- C6, witness: a one-feed, one-entry environment whose fingerprint is
already in the SeenStore. -/
theorem C6_idempotent_rerun_witness :
    envC6.feedsConfig = some (some ⟨some [fmC6]⟩) ∧
    mainRun envC6 = ⟨[], [], 0, some envC6.initialSeen, none⟩ :=
  ⟨rfl, C6_idempotent_rerun envC6 (some ⟨some [fmC6]⟩) rfl (by decide)⟩

theorem process_entry_empty_skip (env : Env) (fm : FeedMeta) (e : Entry)
    (used : List String)
    (h1 : (select_feed_text env e).1 = "") (h2 : (select_feed_text env e).2 = "") :
    process_entry env fm e used = ⟨used, [], [], false, .ok none⟩ := by
  simp only [process_entry, h1, h2]
  simp

theorem feedLoop_empty_skip (env : Env) (fm : FeedMeta) :
    ∀ (es : List Entry) (seen : List (String × SeenRec)) (used : List String),
      (∀ e ∈ es, (select_feed_text env e).1 = "" ∧ (select_feed_text env e).2 = "") →
      feedLoop env fm es seen used = ⟨seen, 0, [], [], none⟩ := by
  intro es
  induction es with
  | nil => intro seen used _; rfl
  | cons e rest ih =>
      intro seen used h
      have he := h e (List.mem_cons_self e rest)
      have hrest := fun x hx => h x (List.mem_cons_of_mem e hx)
      by_cases hs : (seen.lookup (entrySig fm.url e)).isSome = true
      · simp only [feedLoop, hs, if_true]
        exact ih seen used hrest
      · have hs2 : (seen.lookup (entrySig fm.url e)).isSome = false :=
          Bool.eq_false_iff.mpr hs
        have hpe := process_entry_empty_skip env fm e used he.1 he.2
        simp only [feedLoop, hs2, Bool.false_eq_true, if_false, hpe]
        rw [ih seen used hrest]
        rfl

/-- C10, confirmed.  An entry whose cleaned title and extracted text are
both empty is dropped before slug allocation: no document is written, no
cover download is attempted, the used-slug set, the SeenStore and the
new-post count are untouched, and a feed of such entries leaves the whole
feed state unchanged — so the entry is re-examined on every run and never
marked seen. -/
theorem C10_empty_entry_skip :
    (∀ (env : Env) (fm : FeedMeta) (e : Entry) (used : List String),
      (select_feed_text env e).1 = "" → (select_feed_text env e).2 = "" →
      process_entry env fm e used = ⟨used, [], [], false, .ok none⟩) ∧
    (∀ (env : Env) (fm : FeedMeta) (seen : List (String × SeenRec))
        (stems : List String),
      (∀ e ∈ (env.parse fm.url).take 20,
        (select_feed_text env e).1 = "" ∧ (select_feed_text env e).2 = "") →
      process_feed env fm seen stems = ⟨seen, 0, [], [], none⟩) :=
  ⟨process_entry_empty_skip,
    fun env fm seen stems h => feedLoop_empty_skip env fm _ seen stems h⟩

/-- C10, witness at a concrete entry with no title and no text. -/
theorem C10_empty_entry_skip_witness :
    (select_feed_text envC10 emptyEntry).1 = "" ∧
    (select_feed_text envC10 emptyEntry).2 = "" ∧
    process_entry envC10 fmA emptyEntry [] = ⟨[], [], [], false, .ok none⟩ ∧
    process_feed envC10 fmA [] [] = ⟨[], 0, [], [], none⟩ :=
  ⟨rfl, rfl, C10_empty_entry_skip.1 envC10 fmA emptyEntry [] rfl rfl,
    C10_empty_entry_skip.2 envC10 fmA [] [] (by decide)⟩

/-- C4, confirmed.  For an entry that is processed, when the generative
rewrite fails for the secondary language (EL) and no translation
credential is configured, the translation tier is skipped (DeepL is never
called), the EL document is still produced from the deterministic tier-3
fallback body, and the entry completes without failing. -/
theorem C4_degraded_translation (env : Env) (fm : FeedMeta) (e : Entry) (used : List String)
    (hEL : cf_rewrite env .el = .ok none)
    (hK : env.deeplApiKey = "")
    (hNE : ¬((select_feed_text env e).1 = "" ∧ (select_feed_text env e).2 = ""))
    (hW : ∀ p, env.writeFails p = false) :
    (process_entry env fm e used).deeplCalled = false ∧
    (∃ p q, (process_entry env fm e used).result = Except.ok (some (p, q))) ∧
    ((process_entry env fm e used).writes.map (fun w => w.2.body)).getD 1 "" =
      pyStrip (el_label_fix (fallback_el (select_feed_text env e).1
        (select_feed_text env e).2 (source_name_of fm e) (entry_link e))) := by
  have ht : env.cfApiToken ≠ "" := by
    intro h0
    unfold cf_rewrite at hEL
    rw [if_pos h0] at hEL
    exact Except.noConfusion hEL
  obtain ⟨o, hEN⟩ := cf_rewrite_ok env .en ht
  simp only [process_entry, hEN, hEL, if_neg hNE]
  simp [hK, hW]

/-- C4, witness: an environment with Cloudflare account id and DeepL key
both unconfigured, on the Alpha entry. -/
theorem C4_degraded_translation_witness :
    (process_entry envC4 fmA eAlpha []).deeplCalled = false ∧
    (∃ p q, (process_entry envC4 fmA eAlpha []).result = Except.ok (some (p, q))) ∧
    ((process_entry envC4 fmA eAlpha []).writes.map (fun w => w.2.body)).getD 1 "" =
      pyStrip (el_label_fix (fallback_el (select_feed_text envC4 eAlpha).1
        (select_feed_text envC4 eAlpha).2 (source_name_of fmA eAlpha)
        (entry_link eAlpha))) :=
  C4_degraded_translation envC4 fmA eAlpha [] rfl rfl (by decide) (fun _ => rfl)

/-- C7, amended.  The document writer is deterministic in the listed
inputs only up to the two run-dependent effects: two runs produce
identical documents for an entry provided it carries a valid published
timestamp (otherwise the date field follows the wall clock) and the two
processes' set-iteration orders agree on that entry's tag union
(otherwise the front-matter tag list order follows Python's
hash-randomized set iteration).  Formally: a run with a different wall
clock and a different set-order oracle that happens to agree on this
entry's tags writes the same documents. -/
theorem C7_serialization_amended (env : Env) (n2 : String)
    (u2 : List String → List String → List String) (fm : FeedMeta) (e : Entry)
    (used : List String) (d : DateStruct)
    (hd : e.publishedParsed = some d) (hv : dateValid d = true)
    (hu : u2 e.tags fm.tags = env.pySetUnion e.tags fm.tags) :
    process_entry { env with now := n2, pySetUnion := u2 } fm e used =
      process_entry env fm e used := by
  unfold process_entry
  rw [hd]
  simp only [build_date, hv, if_true, hu]
  rfl

/-- C7, witness: an entry with a concrete valid published timestamp under
a single-tag feed is serialised identically by a run with a different
wall clock and a different (but agreeing on this singleton union)
set-iteration order. -/
theorem C7_serialization_amended_witness :
    eC7w.publishedParsed = some dC7 ∧ dateValid dC7 = true ∧
    unionFlipped eC7w.tags fmB.tags = envC7u1.pySetUnion eC7w.tags fmB.tags ∧
    process_entry
        { envC7u1 with
          now := "2031-12-31T23:59:59"
          pySetUnion := unionFlipped } fmB eC7w [] =
      process_entry envC7u1 fmB eC7w [] :=
  ⟨rfl, by decide, by decide,
    C7_serialization_amended envC7u1 "2031-12-31T23:59:59" unionFlipped fmB eC7w [] dC7
      rfl (by decide) (by decide)⟩
